import Mathlib

/-!
Verification of the data-transformation pipeline of 物料分析.py (material
dispatch / sales / price-list dashboard).

The pandas pipeline in `load_data` is shallowly embedded: tables are lists of
structures, float columns are `Option ℚ` where `none` stands for a non-finite
float (NaN/Inf, as produced by missing cells, `replace(0, nan)` or division by
zero), and `fillna` replaces `none`.  Grouped aggregation, merges (left and
outer), quantiles with pandas' linear interpolation, the value-segment
classifier and the sidebar filtering of `main` are translated one-to-one from
the source.
-/

namespace WuliaoAnalysis

/-- Non-finite-propagating multiplication on float-like values
    (`none` = NaN/Inf). -/
def fmul : Option ℚ → Option ℚ → Option ℚ
  | some a, some b => some (a * b)
  | _, _ => none

/-- Float division: dividing by a non-finite value or by zero yields a
    non-finite result (numpy gives NaN or ±Inf there; both are `none`). -/
def fdiv : Option ℚ → Option ℚ → Option ℚ
  | some a, some b => if b = 0 then none else some (a / b)
  | _, _ => none

/-- `Series.replace(0, np.nan)`. -/
def replaceZeroNan : Option ℚ → Option ℚ
  | some a => if a = 0 then none else some a
  | none => none

/-- `Series.fillna(v)` for a scalar fill value `v`. -/
def fillna (x : Option ℚ) (v : ℚ) : Option ℚ :=
  match x with
  | some a => some a
  | none => some v

/-- `Series.fillna(v)` where the fill value is itself a float that may be
    NaN (filling with NaN leaves NaN in place). -/
def fillnaF (x v : Option ℚ) : Option ℚ :=
  match x with
  | some a => some a
  | none => v

/-- Float `>=` against a constant: False when the value is NaN. -/
def fge (x : Option ℚ) (c : ℚ) : Bool :=
  match x with
  | some v => decide (c ≤ v)
  | none => false

/-- Insertion of one element into a sorted list (ascending). -/
def insertSorted (x : ℚ) : List ℚ → List ℚ
  | [] => [x]
  | y :: ys => if x ≤ y then x :: y :: ys else y :: insertSorted x ys

/-- Ascending sort, as pandas sorts a numeric column before quantiles. -/
def sortQ : List ℚ → List ℚ
  | [] => []
  | x :: xs => insertSorted x (sortQ xs)

/-- `Series.quantile(q)` with pandas' default linear interpolation:
    on the sorted values `s₀ ≤ … ≤ s₍ₙ₋₁₎`, position `h = q·(n-1)`,
    result `s_⌊h⌋ + (h - ⌊h⌋)·(s_⌊h⌋₊₁ - s_⌊h⌋)`. -/
def quantileQ (xs : List ℚ) (q : ℚ) : ℚ :=
  match sortQ xs with
  | [] => 0
  | s =>
    let n := s.length
    let pos : ℚ := q * ((n : ℚ) - 1)
    let lo : Nat := (Rat.floor pos).toNat
    let a := s.getD lo 0
    let b := s.getD (lo + 1) a
    a + (pos - (lo : ℚ)) * (b - a)

/-- `Series.median()` (equals the linearly interpolated 0.5-quantile). -/
def medianQ (xs : List ℚ) : ℚ :=
  quantileQ xs (1/2)

/-- One raw material-dispatch line (物料源数据), dates already parsed:
    客户代码, 经销商名称, 所属区域, 省份, 产品代码, 发运月份 (year, month),
    求和项:数量（箱）. -/
structure MaterialRaw where
  custCode : String
  custName : String
  region : String
  province : String
  prodCode : String
  shipY : Nat
  shipM : Nat
  qty : ℚ
deriving DecidableEq

/-- One raw sales line (销售数据): like material plus 求和项:单价（箱）. -/
structure SalesRaw where
  custCode : String
  custName : String
  region : String
  province : String
  prodCode : String
  shipY : Nat
  shipM : Nat
  qty : ℚ
  unitPrice : ℚ
deriving DecidableEq

/-- One price-list row (物料单价): 物料代码, 单价（元） (a cell may be
    empty, hence `Option`), 物料类别. -/
structure PriceRow where
  matCode : String
  price : Option ℚ
  category : String
deriving DecidableEq

/-- `dt.strftime('%Y-%m')`: the 月份名 label derived from the ship date. -/
def monthName (y m : Nat) : String :=
  toString y ++ "-" ++ (if m < 10 then "0" ++ toString m else toString m)

/-- Enriched material row after the price merge and derived columns:
    单价（元）, 物料类别 (null when unmatched), 物料成本, 单位使用效率. -/
structure MaterialRow where
  custCode : String
  custName : String
  region : String
  province : String
  prodCode : String
  monthLabel : String
  qty : ℚ
  price : Option ℚ
  category : Option String
  cost : Option ℚ
  efficiency : Option ℚ
deriving DecidableEq

/-- Sales row with the derived 月份名 and 销售金额 columns. -/
structure SalesRow where
  custCode : String
  custName : String
  region : String
  province : String
  prodCode : String
  monthLabel : String
  qty : ℚ
  unitPrice : ℚ
  amount : ℚ
deriving DecidableEq

/-- `material_price['单价（元）'].mean()`: pandas skips NaN cells; the mean
    of an empty / all-NaN column is itself NaN (`none`). -/
def meanPrice (ps : List PriceRow) : Option ℚ :=
  let known := ps.filterMap (fun p => p.price)
  if known.length = 0 then none else some (known.sum / (known.length : ℚ))

/-- 单位使用效率 = 求和项:数量（箱） / 物料成本.replace(0, nan), then
    fillna(0). -/
def efficiencyOf (qty : ℚ) (cost : Option ℚ) : Option ℚ :=
  fillna (fdiv (some qty) (replaceZeroNan cost)) 0

/-- The material side of `load_data`: left-merge onto the price list on
    产品代码 = 物料代码 (a left row with several hits is duplicated, an
    unmatched row gets null price/category), fill missing 单价（元） with the
    mean price, then derive 物料成本 and 单位使用效率. -/
def enrichMaterial (ms : List MaterialRaw) (ps : List PriceRow) :
    List MaterialRow :=
  ms.flatMap (fun m =>
    let hits := ps.filter (fun p => decide (p.matCode = m.prodCode))
    let cells : List (Option ℚ × Option String) :=
      match hits with
      | [] => [(none, none)]
      | l => l.map (fun p => (p.price, some p.category))
    cells.map (fun c =>
      let pr := fillnaF c.1 (meanPrice ps)
      let cost := fmul (some m.qty) pr
      { custCode := m.custCode, custName := m.custName, region := m.region,
        province := m.province, prodCode := m.prodCode,
        monthLabel := monthName m.shipY m.shipM, qty := m.qty,
        price := pr, category := c.2, cost := cost,
        efficiency := efficiencyOf m.qty cost }))

/-- The sales side of `load_data`: derive 月份名 and
    销售金额 = 求和项:数量（箱） × 求和项:单价（箱）. -/
def enrichSales (s : SalesRaw) : SalesRow :=
  { custCode := s.custCode, custName := s.custName, region := s.region,
    province := s.province, prodCode := s.prodCode,
    monthLabel := monthName s.shipY s.shipM, qty := s.qty,
    unitPrice := s.unitPrice, amount := s.qty * s.unitPrice }

/-- Grouping key (客户代码, 经销商名称, 月份名). -/
abbrev GKey := String × String × String

/-- `groupby(keys)[col].sum().reset_index()`: one output row per distinct
    key, in first-occurrence order; the sum skips NaN cells (pandas
    `skipna=True`, an all-NaN group sums to 0). -/
def groupSum (rows : List α) (key : α → GKey) (val : α → Option ℚ) :
    List (GKey × ℚ) :=
  ((rows.map key).dedup).map (fun k =>
    (k, ((rows.filter (fun r => decide (key r = k))).filterMap val).sum))

/-- `pd.merge(a, b, on=key, how='outer').fillna(0)` for two tables with
    unique keys: every left row paired with its right value (0 when
    missing), then the right-only rows with 0 on the left. -/
def outerMergeFill (a b : List (GKey × ℚ)) : List (GKey × ℚ × ℚ) :=
  a.map (fun x =>
      (x.1, x.2,
        ((b.find? (fun y => decide (y.1 = x.1))).map (fun y => y.2)).getD 0))
    ++ (b.filter (fun y => decide (y.1 ∉ a.map (fun x => x.1)))).map
        (fun y => (y.1, 0, y.2))

/-- One row of the aggregated distributor table (经销商数据). -/
structure DistRow where
  custCode : String
  custName : String
  monthLabel : String
  totalCost : ℚ
  totalSales : ℚ
  roi : Option ℚ
  ratio : Option ℚ
  segment : String
  diversity : Nat
deriving DecidableEq

/-- ROI = np.where(物料总成本 > 0, 销售总额 / 物料总成本, 0). -/
def roiOf (cost sales : ℚ) : Option ℚ :=
  if 0 < cost then fdiv (some sales) (some cost) else some 0

/-- 物料销售比率 = (物料总成本 / 销售总额.replace(0, nan)) × 100, then
    fillna(0). -/
def ratioOf (cost sales : ℚ) : Option ℚ :=
  fillna (fmul (fdiv (some cost) (replaceZeroNan (some sales))) (some 100)) 0

/-- The inner `value_segment(row)` classifier of `load_data`, with the
    销售总额 column of the whole aggregated table in scope for the
    quantile / median thresholds. -/
def value_segment (salesCol : List ℚ) (roi : Option ℚ) (sales : ℚ) : String :=
  if fge roi 2 && decide (quantileQ salesCol (3/4) < sales) then "高价值客户"
  else if fge roi 1 && decide (medianQ salesCol < sales) then "成长型客户"
  else if fge roi 1 then "稳定型客户"
  else "低效型客户"

/-- The grouped material-cost table (物料成本 summed per
    客户代码, 经销商名称, 月份名). -/
def matGrouped (mat : List MaterialRow) : List (GKey × ℚ) :=
  groupSum mat (fun r => (r.custCode, r.custName, r.monthLabel))
    (fun r => r.cost)

/-- The grouped sales table (销售金额 summed per the same key). -/
def salGrouped (sal : List SalesRow) : List (GKey × ℚ) :=
  groupSum sal (fun r => (r.custCode, r.custName, r.monthLabel))
    (fun r => some r.amount)

/-- The full grouping key of an aggregated row. -/
def distKey (r : DistRow) : GKey :=
  (r.custCode, r.custName, r.monthLabel)

/-- Steps 1-4 of the aggregation: group 物料成本 and 销售金额 by
    (客户代码, 经销商名称, 月份名), outer-join with fillna(0), compute ROI
    and 物料销售比率.  客户价值分层 and 物料多样性 are filled by the later
    passes. -/
def distBase (mat : List MaterialRow) (sal : List SalesRow) : List DistRow :=
  (outerMergeFill (matGrouped mat) (salGrouped sal)).map
    (fun x =>
      { custCode := x.1.1, custName := x.1.2.1, monthLabel := x.1.2.2,
        totalCost := x.2.1, totalSales := x.2.2,
        roi := roiOf x.2.1 x.2.2, ratio := ratioOf x.2.1 x.2.2,
        segment := "", diversity := 0 })

/-- `distributor_data.apply(value_segment, axis=1)`: classify every row,
    the thresholds taken from the 销售总额 column of the same table. -/
def applySegments (l : List DistRow) : List DistRow :=
  l.map (fun r =>
    { r with segment := value_segment (l.map (fun x => x.totalSales))
                          r.roi r.totalSales })

/-- 物料多样性: `groupby(['客户代码','月份名'])['产品代码'].nunique()`. -/
def materialDiversity (mat : List MaterialRow) :
    List ((String × String) × Nat) :=
  ((mat.map (fun r => (r.custCode, r.monthLabel))).dedup).map (fun k =>
    (k, ((mat.filter (fun r => decide ((r.custCode, r.monthLabel) = k))).map
          (fun r => r.prodCode)).dedup.length))

/-- Left-merge 物料多样性 onto the distributor table on
    (客户代码, 月份名) and fillna(0). -/
def addDiversity (mat : List MaterialRow) (l : List DistRow) : List DistRow :=
  l.map (fun r =>
    { r with diversity :=
        (((materialDiversity mat).find?
            (fun y => decide (y.1 = (r.custCode, r.monthLabel)))).map
          (fun y => y.2)).getD 0 })

/-- The three derived tables returned by `load_data` (the raw price table
    is returned unchanged and omitted here). -/
structure Tables where
  matT : List MaterialRow
  salT : List SalesRow
  distT : List DistRow
deriving DecidableEq

/-- The whole derivation/aggregation/segmentation pipeline of `load_data`
    after the raw tables are in memory. -/
def processData (mRaw : List MaterialRaw) (sRaw : List SalesRaw)
    (pT : List PriceRow) : Tables :=
  let mat := enrichMaterial mRaw pT
  let sal := sRaw.map enrichSales
  ⟨mat, sal, addDiversity mat (applySegments (distBase mat sal))⟩

/-- The sidebar filter selections of `main`: 选择区域, 选择省份, 选择月份
    (a single value), 选择物料类别, 选择客户价值分层. -/
structure FilterSpec where
  regions : List String
  provinces : List String
  period : String
  categories : List String
  segments : List String

/-- `.isin(selected)` on a column that may hold NaN: a null cell is never
    a member. -/
def optIsin (c : Option String) (l : List String) : Bool :=
  match c with
  | some x => decide (x ∈ l)
  | none => false

/-- `filtered_sales`: region, province and period restriction of the
    sales table. -/
def filteredSales (fs : FilterSpec) (sal : List SalesRow) : List SalesRow :=
  sal.filter (fun s =>
    decide (s.region ∈ fs.regions) && decide (s.province ∈ fs.provinces) &&
      decide (s.monthLabel = fs.period))

/-- `filtered_material`: region, province, period, then 物料类别
    restriction of the enriched material table. -/
def filteredMaterial (fs : FilterSpec) (mat : List MaterialRow) :
    List MaterialRow :=
  (mat.filter (fun m =>
    decide (m.region ∈ fs.regions) && decide (m.province ∈ fs.provinces) &&
      decide (m.monthLabel = fs.period))).filter
    (fun m => optIsin m.category fs.categories)

/-- `filtered_distributor`: period restriction, then 客户价值分层
    restriction, then restriction to 客户代码 values present in
    `filtered_sales` (`valid_distributors`). -/
def filteredDistributor (fs : FilterSpec) (dist : List DistRow)
    (sal : List SalesRow) : List DistRow :=
  ((dist.filter (fun r => decide (r.monthLabel = fs.period))).filter
      (fun r => decide (r.segment ∈ fs.segments))).filter
    (fun r =>
      decide (r.custCode ∈
        ((filteredSales fs sal).map (fun s => s.custCode)).dedup))

/-- Provenance tag of a successfully loaded table triple. -/
inductive LoadSrc where
  | github : LoadSrc
  | localFile : LoadSrc
deriving DecidableEq

/-- The local branch of `load_data`: three `pd.read_excel` calls in order;
    the first raised exception propagates. -/
def loadLocal (lm ls lp : Except ε α) : Except ε (LoadSrc × α × α × α) :=
  match lm with
  | Except.error e => Except.error e
  | Except.ok m =>
    match ls with
    | Except.error e => Except.error e
    | Except.ok s =>
      match lp with
      | Except.error e => Except.error e
      | Except.ok p => Except.ok (LoadSrc.localFile, m, s, p)

/-- The source-selection logic of `load_data`, I/O abstracted: `rm rs rp`
    are the results of the three `load_from_github` calls (`none` = that
    fetch or parse failed; `load_from_github` catches its own exceptions
    and returns `None`), `lm ls lp` the results of the three local
    `pd.read_excel` calls.  If any GitHub result is `None` the local
    branch is taken for all three tables. -/
def load_data (useGithub : Bool) (rm rs rp : Option α)
    (lm ls lp : Except ε α) : Except ε (LoadSrc × α × α × α) :=
  if useGithub then
    match rm, rs, rp with
    | some m, some s, some p => Except.ok (LoadSrc.github, m, s, p)
    | _, _, _ => loadLocal lm ls lp
  else loadLocal lm ls lp

/-- The value-tier decision list as the specification words it (§4.3,
    first match wins): ROI ≥ 2.0 and revenue strictly above the global
    75th percentile ⇒ high-value; else ROI ≥ 1.0 and revenue strictly
    above the global median ⇒ growth; else ROI ≥ 1.0 ⇒ stable; else
    low-efficiency.  Stated separately from `value_segment` so the code's
    classifier can be checked against it. -/
def specValueSegment (salesCol : List ℚ) (roi : Option ℚ) (sales : ℚ) :
    String :=
  if fge roi 2 && decide (quantileQ salesCol (3/4) < sales) then "高价值客户"
  else if fge roi 1 && decide (medianQ salesCol < sales) then "成长型客户"
  else if fge roi 1 then "稳定型客户"
  else "低效型客户"

/-- Example price list: two known prices (5 and 9, mean 7). -/
def exPrice : List PriceRow := [⟨"X", some 5, "catA"⟩, ⟨"Y", some 9, "catB"⟩]

/-- Example material dispatches: D1 ships 16 boxes of the priced product
    X (cost 80), D2 ships 10 boxes of the unpriced product Q (imputed
    price 7, cost 70). -/
def exMat : List MaterialRaw :=
  [⟨"D1", "Dn1", "East", "Zhejiang", "X", 2025, 1, 16⟩,
   ⟨"D2", "Dn2", "East", "Jiangsu", "Q", 2025, 1, 10⟩]

/-- Example sales: D1 sells 200 (ROI 5/2), D2 sells 100 (ROI 10/7), D3
    has sales 100 in 2025-02 with no material cost (ROI 0). -/
def exSal : List SalesRaw :=
  [⟨"D1", "Dn1", "East", "Zhejiang", "X", 2025, 1, 10, 20⟩,
   ⟨"D2", "Dn2", "East", "Jiangsu", "X", 2025, 1, 10, 10⟩,
   ⟨"D3", "Dn3", "West", "Sichuan", "X", 2025, 2, 1, 100⟩]

/-- An example filter selection matching the 2025-01 rows of `exSal`. -/
def exFilter : FilterSpec :=
  ⟨["East"], ["Zhejiang", "Jiangsu"], "2025-01", ["catA", "catB"],
   ["高价值客户", "成长型客户", "稳定型客户", "低效型客户"]⟩

/-- Input on which one distributor code carries two distinct 经销商名称
    spellings in the material and sales files for the same month. -/
def c1Mat : List MaterialRaw := [⟨"A", "N1", "R", "P", "X", 2025, 1, 1⟩]

/-- Sales side of the two-spellings input. -/
def c1Sal : List SalesRaw := [⟨"A", "N2", "R", "P", "X", 2025, 1, 2, 3⟩]

/-- A material row whose product has no price-list entry at all. -/
def c5Mat : List MaterialRaw := [⟨"A", "N1", "R", "P", "X", 2025, 1, 10⟩]

/-- Two distributors of the same month with identical sales (100) and
    identical material cost 40, so each has ROI 5/2 and sales equal to
    every per-month percentile of that month. -/
def c7Mat : List MaterialRaw :=
  [⟨"Z1", "Zn1", "R", "P", "X", 2025, 1, 8⟩,
   ⟨"Z2", "Zn2", "R", "P", "X", 2025, 1, 8⟩]

/-- Sales side of the equal-sales input: both sell 100 in 2025-01. -/
def c7Sal : List SalesRaw :=
  [⟨"Z1", "Zn1", "R", "P", "X", 2025, 1, 10, 10⟩,
   ⟨"Z2", "Zn2", "R", "P", "X", 2025, 1, 10, 10⟩]

/-- Price list for the equal-sales input (price 5, so cost 8 × 5 = 40). -/
def c7Price : List PriceRow := [⟨"X", some 5, "catA"⟩]

/-- The aggregated row the pipeline produces for distributor D1 of the
    example data (cost 80, sales 200, ROI 5/2, high-value). -/
def exD1Row : DistRow :=
  ⟨"D1", "Dn1", "2025-01", 80, 200, some (5/2), some 40, "高价值客户", 1⟩

/-- The aggregated row for sales-only distributor D3 (cost 0, ROI 0). -/
def exD3Row : DistRow :=
  ⟨"D3", "Dn3", "2025-02", 0, 100, some 0, some 0, "低效型客户", 0⟩

/-- The enriched material row for D1 (priced product, cost 80,
    efficiency 1/5). -/
def exD1Mat : MaterialRow :=
  ⟨"D1", "Dn1", "East", "Zhejiang", "X", "2025-01", 16, some 5, some "catA",
   some 80, some (1/5)⟩

/-- The enriched material row for D2 (unpriced product Q, imputed mean
    price 7, cost 70). -/
def exD2Mat : MaterialRow :=
  ⟨"D2", "Dn2", "East", "Jiangsu", "Q", "2025-01", 10, some 7, none,
   some 70, some (1/7)⟩

lemma processData_matT (mRaw : List MaterialRaw) (sRaw : List SalesRaw)
    (pT : List PriceRow) :
    (processData mRaw sRaw pT).matT = enrichMaterial mRaw pT := rfl

lemma processData_salT (mRaw : List MaterialRaw) (sRaw : List SalesRaw)
    (pT : List PriceRow) :
    (processData mRaw sRaw pT).salT = sRaw.map enrichSales := rfl

lemma processData_distT (mRaw : List MaterialRaw) (sRaw : List SalesRaw)
    (pT : List PriceRow) :
    (processData mRaw sRaw pT).distT =
      addDiversity (enrichMaterial mRaw pT)
        (applySegments
          (distBase (enrichMaterial mRaw pT) (sRaw.map enrichSales))) := rfl

lemma keys_groupSum (rows : List α) (key : α → GKey) (val : α → Option ℚ) :
    (groupSum rows key val).map Prod.fst = (rows.map key).dedup := by
  simp [groupSum, List.map_map, Function.comp_def]

lemma nodup_keys_groupSum (rows : List α) (key : α → GKey)
    (val : α → Option ℚ) : ((groupSum rows key val).map Prod.fst).Nodup := by
  rw [keys_groupSum]; exact List.nodup_dedup _

lemma nodup_keys_matGrouped (mat : List MaterialRow) :
    ((matGrouped mat).map Prod.fst).Nodup :=
  nodup_keys_groupSum _ _ _

lemma nodup_keys_salGrouped (sal : List SalesRow) :
    ((salGrouped sal).map Prod.fst).Nodup :=
  nodup_keys_groupSum _ _ _

lemma countP_keys {β : Type} (l : List (GKey × β)) (k : GKey)
    (h : (l.map Prod.fst).Nodup) :
    l.countP (fun x => decide (x.1 = k)) =
      if k ∈ l.map Prod.fst then 1 else 0 := by
  induction l with
  | nil => simp
  | cons a t ih =>
    simp only [List.map_cons, List.nodup_cons] at h
    rw [List.countP_cons, ih h.2]
    by_cases hk : a.1 = k
    · have hnt : k ∉ t.map Prod.fst := by rw [← hk]; exact h.1
      simp [hk, hnt]
    · have hk2 : ¬k = a.1 := fun hh => hk hh.symm
      simp only [List.map_cons, List.mem_cons]
      by_cases hmt : k ∈ t.map Prod.fst
      · simp [hk, hmt, hk2]
      · simp [hk, hmt, hk2]

lemma countP_outerMergeFill (a b : List (GKey × ℚ)) (k : GKey)
    (ha : (a.map Prod.fst).Nodup) (hb : (b.map Prod.fst).Nodup) :
    (outerMergeFill a b).countP (fun x => decide (x.1 = k)) =
      if k ∈ a.map Prod.fst ∨ k ∈ b.map Prod.fst then 1 else 0 := by
  rw [outerMergeFill, List.countP_append, List.countP_map, List.countP_map,
    List.countP_filter]
  show a.countP (fun x => decide (x.1 = k)) +
      b.countP (fun y => decide (y.1 = k) &&
        decide (y.1 ∉ a.map (fun x => x.1))) =
    if k ∈ a.map Prod.fst ∨ k ∈ b.map Prod.fst then 1 else 0
  rw [countP_keys a k ha]
  by_cases hka : k ∈ a.map Prod.fst
  · have hright :
        b.countP (fun y => decide (y.1 = k) &&
          decide (y.1 ∉ a.map (fun x => x.1))) = 0 := by
      rw [List.countP_eq_zero]
      intro y _ hy
      simp only [Bool.and_eq_true, decide_eq_true_eq] at hy
      exact hy.2 (by rw [hy.1]; exact hka)
    rw [hright]
    simp [hka]
  · have hcongr :
        b.countP (fun y => decide (y.1 = k) &&
            decide (y.1 ∉ a.map (fun x => x.1))) =
          b.countP (fun y => decide (y.1 = k)) := by
      apply List.countP_congr
      intro y _
      by_cases hy : y.1 = k
      · have hny : y.1 ∉ a.map (fun x => x.1) := by rw [hy]; exact hka
        have d2 : decide (y.1 ∉ a.map (fun x => x.1)) = true := by
          rw [decide_eq_true_eq]; exact hny
        rw [d2]
        simp
      · simp [hy]
    rw [hcongr, countP_keys b k hb]
    by_cases hkb : k ∈ b.map Prod.fst
    · simp [hka, hkb]
    · simp [hka, hkb]

lemma outerMergeFill_fill (a b : List (GKey × ℚ)) (x : GKey × ℚ × ℚ)
    (hx : x ∈ outerMergeFill a b) :
    (x.1 ∉ b.map Prod.fst → x.2.2 = 0) ∧
      (x.1 ∉ a.map Prod.fst → x.2.1 = 0) := by
  rw [outerMergeFill, List.mem_append] at hx
  rcases hx with hx | hx
  · rcases List.mem_map.1 hx with ⟨y, hy, hxy⟩
    subst hxy
    refine ⟨fun hnb => ?_, fun hna => absurd (List.mem_map_of_mem _ hy) hna⟩
    have : b.find? (fun z => decide (z.1 = y.1)) = none := by
      rw [List.find?_eq_none]
      intro z hz hzy
      simp only [decide_eq_true_eq] at hzy
      exact hnb (by rw [← hzy]; exact List.mem_map_of_mem _ hz)
    simp [this]
  · rcases List.mem_map.1 hx with ⟨y, hy, hxy⟩
    subst hxy
    rw [List.mem_filter] at hy
    refine ⟨fun hnb => absurd (List.mem_map_of_mem _ hy.1) hnb, fun _ => rfl⟩

/-- Every row of the final distributor table originates in one row of the
    outer merge, keeping its key, 物料总成本 and 销售总额. -/
lemma mem_distT_structure (mat : List MaterialRow) (sal : List SalesRow)
    (r : DistRow)
    (hr : r ∈ addDiversity mat (applySegments (distBase mat sal))) :
    ∃ x ∈ outerMergeFill (matGrouped mat) (salGrouped sal),
      distKey r = x.1 ∧ r.totalCost = x.2.1 ∧ r.totalSales = x.2.2 ∧
        r.roi = roiOf x.2.1 x.2.2 ∧ r.ratio = ratioOf x.2.1 x.2.2 := by
  rcases List.mem_map.1 hr with ⟨r0, hr0, hrr0⟩
  rcases List.mem_map.1 hr0 with ⟨r1, hr1, hr01⟩
  rcases List.mem_map.1 hr1 with ⟨x, hx, hxr1⟩
  refine ⟨x, hx, ?_⟩
  subst hrr0; subst hr01; subst hxr1
  exact ⟨rfl, rfl, rfl, rfl, rfl⟩

lemma countP_distKey (mat : List MaterialRow) (sal : List SalesRow)
    (k : GKey) :
    (addDiversity mat (applySegments (distBase mat sal))).countP
        (fun r => decide (distKey r = k)) =
      (outerMergeFill (matGrouped mat) (salGrouped sal)).countP
        (fun x => decide (x.1 = k)) := by
  rw [addDiversity, List.countP_map, applySegments, List.countP_map,
    distBase, List.countP_map]
  rfl

lemma roiOf_isSome (c s : ℚ) : (roiOf c s).isSome := by
  rw [roiOf]
  by_cases hc : 0 < c
  · simp [hc, fdiv, ne_of_gt hc]
  · simp [hc]

lemma roiOf_zero_cost (s : ℚ) : roiOf 0 s = some 0 := by
  simp [roiOf]

lemma ratioOf_isSome (c s : ℚ) : (ratioOf c s).isSome := by
  rw [ratioOf]
  rcases h : fmul (fdiv (some c) (replaceZeroNan (some s))) (some 100) with _ | v
  · simp [fillna]
  · simp [fillna]

lemma ratioOf_zero_sales (c : ℚ) : ratioOf c 0 = some 0 := by
  simp [ratioOf, replaceZeroNan, fdiv, fmul, fillna]

lemma efficiencyOf_isSome (q : ℚ) (c : Option ℚ) :
    (efficiencyOf q c).isSome := by
  rw [efficiencyOf]
  rcases h : fdiv (some q) (replaceZeroNan c) with _ | v
  · simp [fillna]
  · simp [fillna]

lemma efficiencyOf_zero_cost (q : ℚ) : efficiencyOf q (some 0) = some 0 := by
  simp [efficiencyOf, replaceZeroNan, fdiv, fillna]

lemma meanPrice_isSome (ps : List PriceRow)
    (h : ps.filterMap (fun p => p.price) ≠ []) : (meanPrice ps).isSome := by
  rw [meanPrice]
  have : (ps.filterMap (fun p => p.price)).length ≠ 0 := by
    simpa [List.length_eq_zero] using h
  simp [this]

/-- Field equations holding for every enriched material row: 物料成本 is
    quantity times the (imputed) unit price, 单位使用效率 is derived from
    them, the unit price is either a concrete value or the mean price, and
    an unmatched 产品代码 always receives the mean price. -/
lemma enrichMaterial_fields (ms : List MaterialRaw) (ps : List PriceRow)
    (r : MaterialRow) (hr : r ∈ enrichMaterial ms ps) :
    r.cost = fmul (some r.qty) r.price ∧
      r.efficiency = efficiencyOf r.qty r.cost ∧
      (r.price.isSome = true ∨ r.price = meanPrice ps) ∧
      (r.prodCode ∉ ps.map (fun p => p.matCode) → r.price = meanPrice ps) := by
  rw [enrichMaterial, List.mem_flatMap] at hr
  rcases hr with ⟨m, hm, hr⟩
  rcases List.mem_map.1 hr with ⟨c, hc, hcr⟩
  subst hcr
  refine ⟨rfl, rfl, ?_, ?_⟩
  · rcases hhits : ps.filter (fun p => decide (p.matCode = m.prodCode)) with
      _ | ⟨p0, tl⟩
    · rw [hhits] at hc
      simp only [List.mem_singleton] at hc
      subst hc
      right; rfl
    · rw [hhits] at hc
      rcases List.mem_map.1 hc with ⟨p, _, hpc⟩
      subst hpc
      rcases hp : p.price with _ | v
      · right
        simp [fillnaF, hp]
      · left
        simp [fillnaF, hp]
  · intro hnone
    rcases hhits : ps.filter (fun p => decide (p.matCode = m.prodCode)) with
      _ | ⟨p0, tl⟩
    · rw [hhits] at hc
      simp only [List.mem_singleton] at hc
      subst hc
      rfl
    · exfalso
      have hp0 : p0 ∈ ps.filter (fun p => decide (p.matCode = m.prodCode)) := by
        rw [hhits]; exact List.mem_cons_self _ _
      rw [List.mem_filter] at hp0
      simp only [decide_eq_true_eq] at hp0
      exact hnone (by
        rw [← hp0.2]
        exact List.mem_map_of_mem _ hp0.1)

lemma map_totalSales_addDiversity (mat : List MaterialRow)
    (l : List DistRow) :
    (addDiversity mat l).map (fun r => r.totalSales) =
      l.map (fun r => r.totalSales) := by
  rw [addDiversity, List.map_map]; rfl

lemma map_totalSales_applySegments (l : List DistRow) :
    (applySegments l).map (fun r => r.totalSales) =
      l.map (fun r => r.totalSales) := by
  rw [applySegments, List.map_map]; rfl

/-- Every row of the final distributor table carries the 客户价值分层
    label computed by `value_segment` with the thresholds of the whole
    (unfiltered) table. -/
lemma segment_eq (mat : List MaterialRow) (sal : List SalesRow) (r : DistRow)
    (hr : r ∈ addDiversity mat (applySegments (distBase mat sal))) :
    r.segment =
      value_segment
        ((addDiversity mat (applySegments (distBase mat sal))).map
          (fun x => x.totalSales)) r.roi r.totalSales := by
  rw [map_totalSales_addDiversity, map_totalSales_applySegments]
  rcases List.mem_map.1 hr with ⟨r0, hr0, hrr0⟩
  rcases List.mem_map.1 hr0 with ⟨r1, _, hr01⟩
  subst hrr0; subst hr01
  rfl

lemma value_segment_mem (col : List ℚ) (roi : Option ℚ) (s : ℚ) :
    value_segment col roi s ∈
      ["高价值客户", "成长型客户", "稳定型客户", "低效型客户"] := by
  rw [value_segment]
  split_ifs <;> simp

lemma value_segment_eq_spec (col : List ℚ) (roi : Option ℚ) (s : ℚ) :
    value_segment col roi s = specValueSegment col roi s := rfl

lemma loadLocal_ok_inv {α ε : Type} (lm ls lp : Except ε α)
    (src : LoadSrc) (m s p : α)
    (h : loadLocal lm ls lp = Except.ok (src, m, s, p)) :
    src = LoadSrc.localFile ∧ lm = Except.ok m ∧ ls = Except.ok s ∧
      lp = Except.ok p := by
  rcases lm with e | m0
  · simp [loadLocal] at h
  · rcases ls with e | s0
    · simp [loadLocal] at h
    · rcases lp with e | p0
      · simp [loadLocal] at h
      · simp only [loadLocal, Except.ok.injEq, Prod.mk.injEq] at h
        refine ⟨h.1.symm, ?_, ?_, ?_⟩ <;> simp [h.2.1.symm, h.2.2.1.symm, h.2.2.2.symm]

lemma loadLocal_error {α ε : Type} (lm ls lp : Except ε α)
    (h : ∃ e, lm = Except.error e ∨ ls = Except.error e ∨
      lp = Except.error e) :
    ∃ e, loadLocal lm ls lp = Except.error e := by
  rcases lm with e0 | m0
  · exact ⟨e0, rfl⟩
  · rcases ls with e0 | s0
    · exact ⟨e0, rfl⟩
    · rcases lp with e0 | p0
      · exact ⟨e0, rfl⟩
      · rcases h with ⟨e, he | he | he⟩ <;> simp at he

lemma load_data_fallback {α ε : Type} (rm rs rp : Option α)
    (lm ls lp : Except ε α)
    (h : rm = none ∨ rs = none ∨ rp = none) :
    load_data true rm rs rp lm ls lp = loadLocal lm ls lp := by
  rcases rm with _ | m
  · rfl
  · rcases rs with _ | s
    · rfl
    · rcases rp with _ | p
      · rfl
      · rcases h with he | he | he <;> simp at he

unseal Rat.mul Rat.add Rat.inv Rat.sub Rat.ofScientific in
/-- Claim C1, counterexample.  The claim keys the final aggregate by the
    pair (distributor code, month label); the code keys it by the triple
    including 经销商名称.  When code "A" appears with name "N1" in the
    material file and name "N2" in the sales file for month 2025-01, the
    pair ("A", "2025-01") occurs in the grouped material table yet gets
    two rows in the final aggregate, so "exactly one row per pair" is
    false. -/
theorem C1_counterexample :
    (∃ x ∈ matGrouped (enrichMaterial c1Mat []),
      x.1.1 = "A" ∧ x.1.2.2 = "2025-01") ∧
      (processData c1Mat c1Sal []).distT.countP
        (fun r => decide (r.custCode = "A" ∧ r.monthLabel = "2025-01")) =
        2 := by
  decide

/-- Claim C1, amended: for every (distributor code, distributor name,
    month label) triple present in either the grouped material-cost table
    or the grouped sales table, the final aggregate has exactly one row
    with that triple as key, and the missing side's total (物料总成本 or
    销售总额) is 0. -/
theorem C1_outer_join_completeness (mRaw : List MaterialRaw)
    (sRaw : List SalesRaw) (pT : List PriceRow) (k : GKey)
    (hk : k ∈ (matGrouped (enrichMaterial mRaw pT)).map Prod.fst ∨
      k ∈ (salGrouped (sRaw.map enrichSales)).map Prod.fst) :
    ((processData mRaw sRaw pT).distT.countP
        (fun r => decide (distKey r = k)) = 1) ∧
      ∀ r ∈ (processData mRaw sRaw pT).distT, distKey r = k →
        (k ∉ (salGrouped (sRaw.map enrichSales)).map Prod.fst →
          r.totalSales = 0) ∧
        (k ∉ (matGrouped (enrichMaterial mRaw pT)).map Prod.fst →
          r.totalCost = 0) := by
  constructor
  · rw [processData_distT, countP_distKey,
      countP_outerMergeFill (matGrouped _) (salGrouped _) k
        (nodup_keys_matGrouped _) (nodup_keys_salGrouped _), if_pos hk]
  · intro r hr hkey
    rw [processData_distT] at hr
    rcases mem_distT_structure _ _ _ hr with ⟨x, hx, hkx, hcx, hsx, _, _⟩
    have hfill := outerMergeFill_fill _ _ _ hx
    rw [hkey] at hkx
    constructor
    · intro hks
      rw [hsx]
      exact hfill.1 (hkx ▸ hks)
    · intro hkm
      rw [hcx]
      exact hfill.2 (hkx ▸ hkm)

unseal Rat.mul Rat.add Rat.inv Rat.sub Rat.ofScientific in
/-- Claim C1, witness: the sales-only key ("D3", "Dn3", "2025-02") of the
    example data occurs exactly once in the aggregate. -/
theorem C1_witness :
    (("D3", "Dn3", "2025-02") ∈
        (matGrouped (enrichMaterial exMat exPrice)).map Prod.fst ∨
      ("D3", "Dn3", "2025-02") ∈
        (salGrouped (exSal.map enrichSales)).map Prod.fst) ∧
      (processData exMat exSal exPrice).distT.countP
        (fun r => decide (distKey r = ("D3", "Dn3", "2025-02"))) = 1 :=
  ⟨by decide,
    (C1_outer_join_completeness exMat exSal exPrice ("D3", "Dn3", "2025-02")
      (by decide)).1⟩

/-- Claim C2: in the aggregated table ROI and 物料销售比率 are always
    finite (never NaN/Inf), zero 物料总成本 forces ROI = 0 and zero
    销售总额 forces 物料销售比率 = 0; in the enriched material table
    单位使用效率 is always finite and zero 物料成本 forces it to 0. -/
theorem C2_zero_division_safety (mRaw : List MaterialRaw)
    (sRaw : List SalesRaw) (pT : List PriceRow) :
    (∀ r ∈ (processData mRaw sRaw pT).distT,
      r.roi.isSome = true ∧ r.ratio.isSome = true ∧
        (r.totalCost = 0 → r.roi = some 0) ∧
        (r.totalSales = 0 → r.ratio = some 0)) ∧
      ∀ m ∈ (processData mRaw sRaw pT).matT,
        m.efficiency.isSome = true ∧
          (m.cost = some 0 → m.efficiency = some 0) := by
  constructor
  · intro r hr
    rw [processData_distT] at hr
    rcases mem_distT_structure _ _ _ hr with ⟨x, _, _, hcx, hsx, hroi, hratio⟩
    refine ⟨by rw [hroi]; exact roiOf_isSome _ _,
      by rw [hratio]; exact ratioOf_isSome _ _, ?_, ?_⟩
    · intro h0
      have hx0 : x.2.1 = 0 := by rw [← hcx]; exact h0
      rw [hroi, hx0]
      exact roiOf_zero_cost _
    · intro h0
      have hx0 : x.2.2 = 0 := by rw [← hsx]; exact h0
      rw [hratio, hx0]
      exact ratioOf_zero_sales _
  · intro m hm
    rw [processData_matT] at hm
    rcases enrichMaterial_fields _ _ _ hm with ⟨_, heff, _, _⟩
    refine ⟨by rw [heff]; exact efficiencyOf_isSome _ _, ?_⟩
    intro h0
    rw [heff, h0]
    exact efficiencyOf_zero_cost _

unseal Rat.mul Rat.add Rat.inv Rat.sub Rat.ofScientific in
/-- Claim C2, witness: the sales-only distributor D3 of the example data
    has 物料总成本 0 and the theorem forces its ROI to 0. -/
theorem C2_witness : exD3Row.roi = some 0 :=
  ((C2_zero_division_safety exMat exSal exPrice).1 exD3Row
    (by decide)).2.2.1 rfl

/-- Claim C3: every aggregated row carries the label of the spec's
    four-branch first-match-wins decision list (computed with the global
    75th-percentile and median thresholds of the whole table), and that
    label is one of the four tier names. -/
theorem C3_segment_decision_order (mRaw : List MaterialRaw)
    (sRaw : List SalesRaw) (pT : List PriceRow) :
    ∀ r ∈ (processData mRaw sRaw pT).distT,
      r.segment =
          specValueSegment
            ((processData mRaw sRaw pT).distT.map (fun x => x.totalSales))
            r.roi r.totalSales ∧
        r.segment ∈ ["高价值客户", "成长型客户", "稳定型客户", "低效型客户"] := by
  intro r hr
  rw [processData_distT] at hr ⊢
  have h := segment_eq _ _ _ hr
  constructor
  · rw [h]
    exact value_segment_eq_spec _ _ _
  · rw [h]
    exact value_segment_mem _ _ _

unseal Rat.mul Rat.add Rat.inv Rat.sub Rat.ofScientific in
/-- Claim C3, witness: applied to distributor D1 of the example data,
    whose label is 高价值客户. -/
theorem C3_witness :
    exD1Row.segment ∈ ["高价值客户", "成长型客户", "稳定型客户", "低效型客户"] :=
  ((C3_segment_decision_order exMat exSal exPrice) exD1Row (by decide)).2

/-- Claim C4: the 客户价值分层 label of any row surviving the sidebar
    filters equals the label assigned on the unfiltered aggregate, whose
    `value_segment` thresholds are the 75th percentile and median of the
    entire (pre-filter) 销售总额 column. -/
theorem C4_threshold_filter_invariance (mRaw : List MaterialRaw)
    (sRaw : List SalesRaw) (pT : List PriceRow) (fs : FilterSpec) :
    ∀ r ∈ filteredDistributor fs (processData mRaw sRaw pT).distT
        ((processData mRaw sRaw pT).salT),
      r ∈ (processData mRaw sRaw pT).distT ∧
        r.segment =
          value_segment
            ((processData mRaw sRaw pT).distT.map (fun x => x.totalSales))
            r.roi r.totalSales := by
  intro r hr
  rw [filteredDistributor] at hr
  have h2 := (List.mem_filter.1 hr).1
  have h1 := (List.mem_filter.1 h2).1
  have h0 := (List.mem_filter.1 h1).1
  refine ⟨h0, ?_⟩
  rw [processData_distT] at h0 ⊢
  exact segment_eq _ _ _ h0

unseal Rat.mul Rat.add Rat.inv Rat.sub Rat.ofScientific in
/-- Claim C4, witness: distributor D1 survives the example filter and
    keeps its unfiltered membership and label. -/
theorem C4_witness :
    exD1Row ∈ (processData exMat exSal exPrice).distT :=
  (C4_threshold_filter_invariance exMat exSal exPrice exFilter exD1Row
    (by decide)).1

unseal Rat.mul Rat.add Rat.inv Rat.sub Rat.ofScientific in
/-- Claim C5, counterexample.  With an empty price list the mean of the
    known prices is NaN, `fillna(mean)` fills nothing, and the material
    row keeps a null 单价（元）, so "unit price is never null after
    imputation" fails on this input. -/
theorem C5_counterexample :
    (processData c5Mat [] []).matT.map (fun r => r.price) = [none] := by
  decide

/-- Claim C5, amended: provided the price list contains at least one
    known (non-null) price, every enriched material row has a non-null
    unit price, 物料成本 = quantity × unit price, and a 产品代码 with no
    price-list match receives the mean of the known prices. -/
theorem C5_price_imputation (mRaw : List MaterialRaw) (sRaw : List SalesRaw)
    (pT : List PriceRow) (hk : pT.filterMap (fun p => p.price) ≠ []) :
    ∀ r ∈ (processData mRaw sRaw pT).matT,
      r.price.isSome = true ∧ r.cost = fmul (some r.qty) r.price ∧
        (r.prodCode ∉ pT.map (fun p => p.matCode) →
          r.price = meanPrice pT) := by
  intro r hr
  rw [processData_matT] at hr
  rcases enrichMaterial_fields _ _ _ hr with ⟨hc, _, hps, hmiss⟩
  refine ⟨?_, hc, hmiss⟩
  rcases hps with h | h
  · exact h
  · rw [h]
    exact meanPrice_isSome _ hk

unseal Rat.mul Rat.add Rat.inv Rat.sub Rat.ofScientific in
/-- Claim C5, witness: distributor D2's product Q has no price-list
    entry; its row gets the mean price 7 and cost 10 × 7 = 70. -/
theorem C5_witness :
    (exPrice.filterMap (fun p => p.price) ≠ []) ∧
      exD2Mat.price.isSome = true ∧
      exD2Mat.cost = fmul (some exD2Mat.qty) exD2Mat.price ∧
      (exD2Mat.prodCode ∉ exPrice.map (fun p => p.matCode) →
        exD2Mat.price = meanPrice exPrice) :=
  ⟨by decide,
    C5_price_imputation exMat exSal exPrice (by decide) exD2Mat (by decide)⟩

/-- Claim C6: with remote loading configured, a failed fetch or parse of
    any one of the three datasets makes `load_data` take the local branch
    for all three tables (never a remote/local mix), and a failure among
    the local reads propagates as an error, producing no tables. -/
theorem C6_all_or_nothing_fallback {α ε : Type} (rm rs rp : Option α)
    (lm ls lp : Except ε α)
    (hfail : rm = none ∨ rs = none ∨ rp = none) :
    load_data true rm rs rp lm ls lp = loadLocal lm ls lp ∧
      (∀ src m s p,
        load_data true rm rs rp lm ls lp = Except.ok (src, m, s, p) →
          src = LoadSrc.localFile ∧ lm = Except.ok m ∧ ls = Except.ok s ∧
            lp = Except.ok p) ∧
      ((∃ e, lm = Except.error e ∨ ls = Except.error e ∨
          lp = Except.error e) →
        ∃ e, load_data true rm rs rp lm ls lp = Except.error e) := by
  have hfb := load_data_fallback rm rs rp lm ls lp hfail
  refine ⟨hfb, ?_, ?_⟩
  · intro src m s p h
    rw [hfb] at h
    exact loadLocal_ok_inv _ _ _ _ _ _ _ h
  · intro he
    rw [hfb]
    exact loadLocal_error _ _ _ he

/-- Claim C6, witness: the sales fetch fails (`none`), so the loader
    returns exactly the local load of all three tables. -/
theorem C6_witness :
    ((some 1 : Option Nat) = none ∨ (none : Option Nat) = none ∨
        (some 3 : Option Nat) = none) ∧
      load_data true (some 1) none (some 3)
          (Except.ok 4 : Except String Nat) (Except.ok 5) (Except.ok 6) =
        loadLocal (Except.ok 4) (Except.ok 5) (Except.ok 6) :=
  ⟨Or.inr (Or.inl rfl),
    (C6_all_or_nothing_fallback (some 1) none (some 3) (Except.ok 4)
      (Except.ok 5) (Except.ok 6) (Or.inr (Or.inl rfl))).1⟩

unseal Rat.mul Rat.add Rat.inv Rat.sub Rat.ofScientific in
/-- Claim C7, counterexample.  The claim promises high-value for ROI 2.5
    with sales at the month's own 80th percentile, but the code compares
    strictly against the global 75th percentile.  With two distributors
    of one month both at sales 100 and ROI 5/2, each row's sales equal the
    80th percentile of its month, yet 100 is not strictly above the global
    75th percentile (also 100), so both are classified 稳定型客户, not
    高价值客户. -/
theorem C7_counterexample :
    ∃ r ∈ (processData c7Mat c7Sal c7Price).distT,
      r.roi = some (5/2) ∧
        r.totalSales =
          quantileQ
            (((processData c7Mat c7Sal c7Price).distT.filter
                (fun x => decide (x.monthLabel = r.monthLabel))).map
              (fun x => x.totalSales)) (4/5) ∧
        ¬r.segment = "高价值客户" := by
  decide

/-- Claim C7, amended: a distributor-period row with ROI = 5/2 whose
    销售总额 strictly exceeds the global 75th percentile of the
    aggregated table's 销售总额 column is classified 高价值客户. -/
theorem C7_high_value_above_global_q75 (mRaw : List MaterialRaw)
    (sRaw : List SalesRaw) (pT : List PriceRow) (r : DistRow)
    (hr : r ∈ (processData mRaw sRaw pT).distT)
    (hroi : r.roi = some (5/2))
    (hs : quantileQ
        ((processData mRaw sRaw pT).distT.map (fun x => x.totalSales))
        (3/4) < r.totalSales) :
    r.segment = "高价值客户" := by
  rw [processData_distT] at hr hs
  rw [segment_eq _ _ _ hr, value_segment]
  have h1 : fge r.roi 2 = true := by
    rw [hroi, fge]
    norm_num
  simp [h1, hs]

unseal Rat.mul Rat.add Rat.inv Rat.sub Rat.ofScientific in
/-- Claim C7, witness: distributor D1 of the example data has ROI 5/2 and
    sales 200 above the global 75th percentile 150, and is labelled
    高价值客户. -/
theorem C7_witness :
    (exD1Row.roi = some (5/2) ∧
        quantileQ
          ((processData exMat exSal exPrice).distT.map
            (fun x => x.totalSales)) (3/4) < exD1Row.totalSales) ∧
      exD1Row.segment = "高价值客户" :=
  ⟨⟨by decide, by decide⟩,
    C7_high_value_above_global_q75 exMat exSal exPrice exD1Row (by decide)
      (by decide) (by decide)⟩

/-- Claim C8: every row of the filtered distributor view is in the
    selected period, carries a selected 客户价值分层 label, and its
    客户代码 occurs in the region/province/period-filtered sales table; a
    distributor absent from the filtered sales table cannot appear. -/
theorem C8_filtered_view_consistency (mRaw : List MaterialRaw)
    (sRaw : List SalesRaw) (pT : List PriceRow) (fs : FilterSpec) :
    ∀ r ∈ filteredDistributor fs (processData mRaw sRaw pT).distT
        ((processData mRaw sRaw pT).salT),
      r.monthLabel = fs.period ∧ r.segment ∈ fs.segments ∧
        r.custCode ∈
          (filteredSales fs ((processData mRaw sRaw pT).salT)).map
            (fun s => s.custCode) := by
  intro r hr
  rw [filteredDistributor] at hr
  rcases List.mem_filter.1 hr with ⟨h12, h3⟩
  rcases List.mem_filter.1 h12 with ⟨h1f, h2⟩
  have h1 := (List.mem_filter.1 h1f).2
  simp only [decide_eq_true_eq] at h1 h2 h3
  exact ⟨h1, h2, List.mem_dedup.1 h3⟩

unseal Rat.mul Rat.add Rat.inv Rat.sub Rat.ofScientific in
/-- Claim C8, witness: D1 in the filtered view of the example data is in
    period 2025-01, in a selected segment, and present in the filtered
    sales table. -/
theorem C8_witness :
    exD1Row.monthLabel = exFilter.period ∧
      exD1Row.segment ∈ exFilter.segments ∧
      exD1Row.custCode ∈
        (filteredSales exFilter
            ((processData exMat exSal exPrice).salT)).map
          (fun s => s.custCode) :=
  C8_filtered_view_consistency exMat exSal exPrice exFilter exD1Row
    (by decide)

/-- Claim C9: the derivation/aggregation/segmentation pipeline is a pure
    function of the three raw tables — equal inputs give identical
    enriched material, sales, and aggregated distributor tables (rows,
    values and order). -/
theorem C9_pipeline_deterministic (m1 m2 : List MaterialRaw)
    (s1 s2 : List SalesRaw) (p1 p2 : List PriceRow)
    (hm : m1 = m2) (hs : s1 = s2) (hp : p1 = p2) :
    processData m1 s1 p1 = processData m2 s2 p2 := by
  rw [hm, hs, hp]

/-- Claim C9, witness: rerunning the pipeline on the example inputs
    reproduces the same tables. -/
theorem C9_witness :
    exMat = exMat ∧
      processData exMat exSal exPrice = processData exMat exSal exPrice :=
  ⟨rfl, C9_pipeline_deterministic exMat exMat exSal exSal exPrice exPrice
    rfl rfl rfl⟩

/-- Claim C10: a material row with positive quantity and a non-null,
    non-zero unit price has 单位使用效率 = 1 / unit price — independent of
    the quantity, because quantity / (quantity × price) = 1 / price. -/
theorem C10_efficiency_inverse_price (mRaw : List MaterialRaw)
    (sRaw : List SalesRaw) (pT : List PriceRow) (r : MaterialRow) (p : ℚ)
    (hr : r ∈ (processData mRaw sRaw pT).matT) (hq : 0 < r.qty)
    (hp : r.price = some p) (hp0 : p ≠ 0) :
    r.efficiency = some (1 / p) := by
  rw [processData_matT] at hr
  rcases enrichMaterial_fields _ _ _ hr with ⟨hc, he, _, _⟩
  rw [hp] at hc
  have hqp : r.qty * p ≠ 0 := mul_ne_zero (ne_of_gt hq) hp0
  rw [he, hc]
  show efficiencyOf r.qty (some (r.qty * p)) = some (1 / p)
  rw [efficiencyOf, replaceZeroNan]
  simp only [hqp, if_false]
  rw [fdiv]
  simp only [hqp, if_false, fillna]
  rw [div_mul_cancel_left₀ (ne_of_gt hq), one_div]

unseal Rat.mul Rat.add Rat.inv Rat.sub Rat.ofScientific in
/-- Claim C10, witness: D1's material row has quantity 16 and unit price
    5, and its 单位使用效率 is 1/5. -/
theorem C10_witness :
    ((0 : ℚ) < exD1Mat.qty ∧ exD1Mat.price = some 5 ∧ (5 : ℚ) ≠ 0) ∧
      exD1Mat.efficiency = some (1 / 5) :=
  ⟨⟨by decide, rfl, by decide⟩,
    C10_efficiency_inverse_price exMat exSal exPrice exD1Mat 5 (by decide)
      (by decide) rfl (by decide)⟩

end WuliaoAnalysis
